import Mathlib

/-!
Verification development for the 2025LongEmotion batch-annotation scripts
(EC_v5.py, ED_v2.py, ES_v1.py, QA_v3.py).

Python strings are embedded as `List Char`; Python's `json` module is
modelled by an executable JSON parser (`pyJsonLoads`); the regular
expressions used by the scripts are hand-compiled to a small backtracking
matcher (`matchRun`) whose repetition operators only range over
single-character matchers, which is exactly the shape of every pattern in
the source.  Fallible Python code (statements that can raise an uncaught
exception) is embedded with `Except Unit`.
-/

/-- Characters of a string literal, the embedding of a Python `str`. -/
def lchars (s : String) : List Char := s.data

/-- Python `str.strip()` whitespace set (ASCII part). -/
def pyIsSpace (c : Char) : Bool :=
  c = ' ' || c = '\t' || c = '\n' || c = '\x0d' || c = '\x0b' || c = '\x0c'

/-- Python `str.strip()` with no argument. -/
def pyStrip (s : List Char) : List Char :=
  ((s.dropWhile pyIsSpace).reverse.dropWhile pyIsSpace).reverse

/-- Python `str.lower()` (ASCII; the source texts are ASCII plus Chinese,
which has no case). -/
def pyLower (s : List Char) : List Char := s.map Char.toLower

/-- Helper for `pySplit`: `cur` is the reversed current word. -/
def pySplitAux : List Char → List Char → List (List Char)
  | [], cur => if cur = [] then [] else [cur.reverse]
  | c :: r, cur =>
      if pyIsSpace c then
        if cur = [] then pySplitAux r [] else cur.reverse :: pySplitAux r []
      else pySplitAux r (c :: cur)

/-- Python `str.split()` with no argument: split on whitespace runs,
dropping empty pieces. -/
def pySplit (s : List Char) : List (List Char) := pySplitAux s []

/-- Python `needle in haystack` for strings (substring test). -/
def containsSub (n : List Char) : List Char → Bool
  | [] => n.isEmpty
  | c :: r => n.isPrefixOf (c :: r) || containsSub n r

/-- Value of a decimal-digit string. -/
def digitsToNat (g : List Char) : ℕ :=
  g.foldl (fun a c => a * 10 + (c.toNat - 48)) 0

/-- Python `int(s)` restricted to the all-digits case; `none` models
`ValueError` (which the scripts catch). -/
def toIntOfDigits (g : List Char) : Option ℕ :=
  if g ≠ [] ∧ g.all Char.isDigit then some (digitsToNat g) else none

/-! ## JSON values and `json.loads` -/

/-- JSON values as produced by Python's `json.loads`.  Non-integer numbers
are kept as their lexeme (`numOther`); none of the scripts computes with
them. -/
inductive JsonVal where
  | null : JsonVal
  | bool (b : Bool) : JsonVal
  | int (n : ℤ) : JsonVal
  | numOther (lex : List Char) : JsonVal
  | str (s : List Char) : JsonVal
  | arr (elems : List JsonVal) : JsonVal
  | obj (kvs : List (List Char × JsonVal)) : JsonVal

/-- Python `dict.get k`: duplicate keys in the JSON text keep the last
binding, as `json.loads` does. -/
def jGet (kvs : List (List Char × JsonVal)) (k : List Char) : Option JsonVal :=
  kvs.foldl (fun acc p => if p.1 = k then some p.2 else acc) none

/-- Python `dict.get k default`. -/
def jGetD (kvs : List (List Char × JsonVal)) (k : List Char) (d : JsonVal) : JsonVal :=
  (jGet kvs k).getD d

/-- `dict.get` lifted to a value that may not be a dict (`none` then). -/
def jLookup : JsonVal → List Char → Option JsonVal
  | .obj kvs, k => jGet kvs k
  | _, _ => none

/-- Keys of an object value, in insertion order. -/
def jKeys : JsonVal → List (List Char)
  | .obj kvs => kvs.map (fun p => p.1)
  | _ => []

/-- JSON inter-token whitespace (per RFC 8259, as used by `json.loads`;
note this is smaller than the `str.strip` set). -/
def jsonIsWs (c : Char) : Bool :=
  c = ' ' || c = '\t' || c = '\n' || c = '\x0d'

def jsonSkipWs (s : List Char) : List Char := s.dropWhile jsonIsWs

/-- Hex digit value. -/
def hexVal (c : Char) : Option ℕ :=
  if c.isDigit then some (c.toNat - 48)
  else if 'a' ≤ c ∧ c ≤ 'f' then some (c.toNat - 87)
  else if 'A' ≤ c ∧ c ≤ 'F' then some (c.toNat - 55)
  else none

/-- JSON string-escape decoding. -/
def escDecode : Char → Option Char
  | '"' => some '"'
  | '\\' => some '\\'
  | '/' => some '/'
  | 'b' => some '\x08'
  | 'f' => some '\x0c'
  | 'n' => some '\n'
  | 'r' => some '\x0d'
  | 't' => some '\t'
  | _ => none

/-- Body of a JSON string literal (after the opening quote); returns the
decoded characters and the rest of the input.  Strict mode: raw control
characters are rejected.  Surrogate pairing of `\uXXXX` escapes is
approximated by a direct code-point conversion. -/
def parseJString : List Char → Option (List Char × List Char)
  | [] => none
  | '"' :: r => some ([], r)
  | '\\' :: 'u' :: a :: b :: c :: d :: r =>
      match hexVal a, hexVal b, hexVal c, hexVal d with
      | some x1, some x2, some x3, some x4 =>
          (parseJString r).map
            (fun p => (Char.ofNat (((x1 * 16 + x2) * 16 + x3) * 16 + x4) :: p.1, p.2))
      | _, _, _, _ => none
  | '\\' :: e :: r =>
      match escDecode e with
      | some c => (parseJString r).map (fun p => (c :: p.1, p.2))
      | none => none
  | c :: r =>
      if c.toNat < 32 then none
      else (parseJString r).map (fun p => (c :: p.1, p.2))

/-- Exponent part of a JSON number: `(lexeme, rest)`; `([], s)` when no
exponent starts here; `none` when an exponent is started but malformed. -/
def parseJExp : List Char → Option (List Char × List Char)
  | 'e' :: r =>
      let sr : List Char × List Char :=
        match r with
        | '+' :: t => (['+'], t)
        | '-' :: t => (['-'], t)
        | _ => ([], r)
      let ed := sr.2.takeWhile Char.isDigit
      if ed = [] then none else some ('e' :: sr.1 ++ ed, sr.2.drop ed.length)
  | 'E' :: r =>
      let sr : List Char × List Char :=
        match r with
        | '+' :: t => (['+'], t)
        | '-' :: t => (['-'], t)
        | _ => ([], r)
      let ed := sr.2.takeWhile Char.isDigit
      if ed = [] then none else some ('E' :: sr.1 ++ ed, sr.2.drop ed.length)
  | s => some ([], s)

/-- JSON number starting at `s`: integers become `JsonVal.int`, numbers
with a fraction or exponent keep their lexeme. -/
def parseJNum (s : List Char) : Option (JsonVal × List Char) :=
  let np : Bool × List Char := match s with | '-' :: r => (true, r) | _ => (false, s)
  let ds := np.2.takeWhile Char.isDigit
  if ds = [] then none
  else if ds.length > 1 ∧ ds.headD '0' = '0' then none
  else
    let s2 := np.2.drop ds.length
    match s2 with
    | '.' :: r =>
        let fd := r.takeWhile Char.isDigit
        if fd = [] then none
        else
          match parseJExp (r.drop fd.length) with
          | some (ex, s4) =>
              some (.numOther ((if np.1 then ['-'] else []) ++ ds ++ '.' :: fd ++ ex), s4)
          | none => none
    | _ =>
        match parseJExp s2 with
        | some ([], s4) =>
            some (.int (if np.1 then -(digitsToNat ds : ℤ) else (digitsToNat ds : ℤ)), s4)
        | some (ex, s4) =>
            some (.numOther ((if np.1 then ['-'] else []) ++ ds ++ ex), s4)
        | none => none

/-- Parser modes: a JSON value, the inside of an array (just after `[` or
accumulating after elements), the inside of an object. -/
inductive PMode where
  | val : PMode
  | arrBody : PMode
  | arrRest (acc : List JsonVal) : PMode
  | objBody : PMode
  | objRest (acc : List (List Char × JsonVal)) : PMode

/-- One member `"key" : value` of an object: `(key, value, rest)`. -/
def parseJ (fuel : ℕ) : PMode → List Char → Option (JsonVal × List Char) :=
  match fuel with
  | 0 => fun _ _ => none
  | fuel + 1 => fun mode s =>
    match mode with
    | .val =>
        let s1 := jsonSkipWs s
        match s1 with
        | [] => none
        | '\x7b' :: r => parseJ fuel .objBody r
        | '[' :: r => parseJ fuel .arrBody r
        | '"' :: r => (parseJString r).map (fun p => (.str p.1, p.2))
        | _ =>
            if (lchars "true").isPrefixOf s1 then some (.bool true, s1.drop 4)
            else if (lchars "false").isPrefixOf s1 then some (.bool false, s1.drop 5)
            else if (lchars "null").isPrefixOf s1 then some (.null, s1.drop 4)
            else if (lchars "NaN").isPrefixOf s1 then some (.numOther (lchars "NaN"), s1.drop 3)
            else if (lchars "Infinity").isPrefixOf s1 then
              some (.numOther (lchars "Infinity"), s1.drop 8)
            else if (lchars "-Infinity").isPrefixOf s1 then
              some (.numOther (lchars "-Infinity"), s1.drop 9)
            else parseJNum s1
    | .arrBody =>
        let s1 := jsonSkipWs s
        match s1 with
        | ']' :: r => some (.arr [], r)
        | _ =>
            match parseJ fuel .val s1 with
            | some (v, r) => parseJ fuel (.arrRest [v]) r
            | none => none
    | .arrRest acc =>
        match jsonSkipWs s with
        | ',' :: r =>
            match parseJ fuel .val r with
            | some (v, r2) => parseJ fuel (.arrRest (acc ++ [v])) r2
            | none => none
        | ']' :: r => some (.arr acc, r)
        | _ => none
    | .objBody =>
        let s1 := jsonSkipWs s
        match s1 with
        | '\x7d' :: r => some (.obj [], r)
        | '"' :: r =>
            match parseJString r with
            | some (k, r2) =>
                match jsonSkipWs r2 with
                | ':' :: r3 =>
                    match parseJ fuel .val r3 with
                    | some (v, r4) => parseJ fuel (.objRest [(k, v)]) r4
                    | none => none
                | _ => none
            | none => none
        | _ => none
    | .objRest acc =>
        match jsonSkipWs s with
        | ',' :: r =>
            match jsonSkipWs r with
            | '"' :: r1 =>
                match parseJString r1 with
                | some (k, r2) =>
                    match jsonSkipWs r2 with
                    | ':' :: r3 =>
                        match parseJ fuel .val r3 with
                        | some (v, r4) => parseJ fuel (.objRest (acc ++ [(k, v)])) r4
                        | none => none
                    | _ => none
                | none => none
            | _ => none
        | '\x7d' :: r => some (.obj acc, r)
        | _ => none

/-- Python `json.loads`: parse a whole value, requiring only whitespace
after it; `none` models `json.JSONDecodeError`.  The fuel `2 |s| + 8`
exceeds the recursion depth of any parse of `s`. -/
def pyJsonLoads (s : List Char) : Option JsonVal :=
  match parseJ (2 * s.length + 8) .val s with
  | some (v, r) => if jsonSkipWs r = [] then some v else none
  | none => none

/-! ## A small regex matcher

Every regular expression in the four scripts only repeats
single-character items (`[^{}]*`, `\s*`, `\d+`, `.*?`, `s?`, `["']?`),
so patterns are embedded as a list of items whose repetition operators
range over a character matcher.  Backtracking order follows Python `re`:
greedy repetitions try the longest count first, lazy ones the shortest,
`?` tries with the character first; `re.search` returns the leftmost
match. -/

/-- Single-character matchers. -/
inductive CharM where
  | lit (c : Char) : CharM
  | cls (neg : Bool) (cs : List Char) : CharM
  | digit : CharM
  | space : CharM
  | dot (all : Bool) : CharM

/-- Python `\w` (ASCII approximation; only used on ASCII inputs here). -/
def isWordChar (c : Char) : Bool := c.isAlphanum || c = '_'

def charMatch : CharM → Char → Bool
  | .lit c, x => x = c
  | .cls neg cs, x => if neg then !(cs.contains x) else cs.contains x
  | .digit, x => x.isDigit
  | .space, x => pyIsSpace x
  | .dot all, x => all || x ≠ '\n'

/-- Items of a pattern.  `rep lazy cap min1 m` is `m*` (or `m+` when
`min1`), capturing group 1 when `cap`; each source pattern has at most
one group. -/
inductive RItem where
  | lit (s : List Char) : RItem
  | one (m : CharM) : RItem
  | opt (m : CharM) : RItem
  | rep (lazy cap min1 : Bool) (m : CharM) : RItem
  | bol : RItem
  | eol : RItem
  | wordB : RItem

/-- The previous character after consuming `consumed`. -/
def newPrev (consumed : List Char) (prev : Option Char) : Option Char :=
  match consumed.getLast? with
  | some c => some c
  | none => prev

/-- Keep the continuation's capture if any, else this item's. -/
def orCap (c t : Option (List Char)) : Option (List Char) :=
  match c with
  | some x => some x
  | none => t

/-- `\b`: word / non-word transition between the previous character and
the next one. -/
def isBoundary (prev : Option Char) (s : List Char) : Bool :=
  let a := match prev with | some c => isWordChar c | none => false
  let b := match s with | c :: _ => isWordChar c | [] => false
  (a && !b) || (!a && b)

/-- Match a pattern at the current position.  Returns the remaining input
and the capture of group 1, if the pattern matched here.  `prev` is the
character just before the current position (for `^` and `\b`).  One unit
of fuel is spent per pattern item, so `pat.length + 1` fuel always
suffices; sibling backtracking alternatives run at equal fuel. -/
def matchRun : ℕ → List RItem → Option Char → List Char →
    Option (List Char × Option (List Char))
  | 0, _, _, _ => none
  | _ + 1, [], _, s => some (s, none)
  | fuel + 1, it :: rest, prev, s =>
      match it with
      | .lit l =>
          if l.isPrefixOf s then matchRun fuel rest (newPrev l prev) (s.drop l.length)
          else none
      | .one m =>
          match s with
          | c :: r => if charMatch m c then matchRun fuel rest (some c) r else none
          | [] => none
      | .opt m =>
          match s with
          | c :: r =>
              if charMatch m c then
                match matchRun fuel rest (some c) r with
                | some res => some res
                | none => matchRun fuel rest prev s
              else matchRun fuel rest prev s
          | [] => matchRun fuel rest prev s
      | .rep lazy cap min1 m =>
          let n := (s.takeWhile (charMatch m)).length
          let lo := if min1 then 1 else 0
          if n < lo then none
          else
            let ks := if lazy then (List.range (n + 1)).drop lo
                      else ((List.range (n + 1)).drop lo).reverse
            ks.findSome? (fun k =>
              match matchRun fuel rest (newPrev (s.take k) prev) (s.drop k) with
              | some (r, c) => some (r, orCap c (if cap then some (s.take k) else none))
              | none => none)
      | .bol => if prev.isNone then matchRun fuel rest prev s else none
      | .eol => if s = [] ∨ s = ['\n'] then matchRun fuel rest prev s else none
      | .wordB => if isBoundary prev s then matchRun fuel rest prev s else none

/-- `re.match`: anchored at the start.  Returns `(matched text, group 1)`. -/
def reMatch (pat : List RItem) (s : List Char) :
    Option (List Char × Option (List Char)) :=
  match matchRun (pat.length + 1) pat none s with
  | some (rest, cap) => some (s.take (s.length - rest.length), cap)
  | none => none

/-- `re.search` scan: try each start position from left to right. -/
def reSearchAux (pat : List RItem) : Option Char → List Char →
    Option (List Char × Option (List Char))
  | prev, [] =>
      match matchRun (pat.length + 1) pat prev [] with
      | some (_, cap) => some ([], cap)
      | none => none
  | prev, c :: r =>
      match matchRun (pat.length + 1) pat prev (c :: r) with
      | some (rest, cap) =>
          some ((c :: r).take ((c :: r).length - rest.length), cap)
      | none => reSearchAux pat (some c) r

/-- `re.search`: leftmost match, returning `(matched text, group 1)`. -/
def reSearch (pat : List RItem) (s : List Char) :
    Option (List Char × Option (List Char)) :=
  reSearchAux pat none s

/-! ## EC_v5.py — emotion classification -/

/-- The regex `\{[^{}]*"Emotion"[^{}]*\}` of `extract_emotion_from_json`. -/
def ecEmotionJsonPat : List RItem :=
  [.one (.lit '\x7b'),
   .rep false false false (.cls true ['\x7b', '\x7d']),
   .lit (lchars "\"Emotion\""),
   .rep false false false (.cls true ['\x7b', '\x7d']),
   .one (.lit '\x7d')]

/-- `OllamaJSONLProcessor.extract_emotion_from_json`: search for a brace
block mentioning `"Emotion"`, `json.loads` it, and take the `"Emotion"`
entry.  The bare `except` makes every failure (no match, parse error, or
the value being absent) return `None`, embedded as `none`; the regex
guarantees a matched block parses to an object or not at all. -/
def extract_emotion_from_json (model_response : List Char) : Option JsonVal :=
  match reSearch ecEmotionJsonPat model_response with
  | some (matched, _) =>
      match pyJsonLoads matched with
      | some (.obj kvs) => jGet kvs (lchars "Emotion")
      | _ => none
  | none => none

/-- Substring tier of `extract_emotion`: first choice (in declaration
order) whose lowercase form occurs in the lowercased response.  The
source lowercases the choices separately and returns the original-case
element at the same index; scanning each choice directly is the same. -/
def ec_tier2 : List (List Char) → List Char → Option (List Char)
  | [], _ => none
  | c :: cs, response_lower =>
      if containsSub (pyLower c) response_lower then some c
      else ec_tier2 cs response_lower

/-- The `emotion_patterns` table of `extract_emotion` (insertion order).
Each pattern is a literal, so `re.search` is a substring test. -/
def ec_emotion_patterns : List (List Char × List (List Char)) :=
  [(lchars "Delight", [lchars "delight", lchars "happy", lchars "joy", lchars "pleasure"]),
   (lchars "Anger", [lchars "anger", lchars "angry", lchars "mad", lchars "furious"]),
   (lchars "Embarrassment",
     [lchars "embarrassment", lchars "embarrassed", lchars "ashamed", lchars "shame"]),
   (lchars "Hopeless",
     [lchars "hopeless", lchars "despair", lchars "desperate", lchars "no hope"]),
   (lchars "Pride",
     [lchars "pride", lchars "proud", lchars "accomplish", lchars "achievement"]),
   (lchars "Disappointment",
     [lchars "disappointment", lchars "disappointed", lchars "let down", lchars "dissatisfied"])]

/-- Synonym tier of `extract_emotion`: only emotions present in the
current choice list are considered; the first table entry with a pattern
occurring in the lowercased response wins. -/
def ec_tier3 : List (List Char × List (List Char)) → List (List Char) → List Char →
    Option (List Char)
  | [], _, _ => none
  | (emo, pats) :: tbl, choices, response_lower =>
      if emo ∈ choices then
        if pats.any (fun p => containsSub p response_lower) then some emo
        else ec_tier3 tbl choices response_lower
      else ec_tier3 tbl choices response_lower

/-- Tiers 2-4 of `extract_emotion` (everything after the JSON tier):
substring match, synonym table, then the first choice (or `"Delight"`
when the choice list is empty). -/
def ec_lower_tiers (model_response : List Char) (choices : List (List Char)) : List Char :=
  match ec_tier2 choices (pyLower model_response) with
  | some c => c
  | none =>
      match ec_tier3 ec_emotion_patterns choices (pyLower model_response) with
      | some e => e
      | none => choices.headD (lchars "Delight")

/-- `OllamaJSONLProcessor.extract_emotion`.  The JSON-tier value is used
only when it is a truthy string that is a member of `choices` (a
non-string value is never `in choices`, and `None` or `""` is falsy), else
the lower tiers run. -/
def extract_emotion (model_response : List Char) (choices : List (List Char)) : List Char :=
  match extract_emotion_from_json model_response with
  | some (.str e) =>
      if e ≠ [] ∧ e ∈ choices then e else ec_lower_tiers model_response choices
  | _ => ec_lower_tiers model_response choices

/-- `enumerate` with a start index (the shape of the scripts' loops). -/
def enumF : ℕ → List α → List (ℕ × α)
  | _, [] => []
  | n, a :: as => (n, a) :: enumF (n + 1) as

/-- A truthy record cap: `lines[:max_examples]` runs only when
`max_examples` is truthy, so `some 0` behaves like no cap. -/
def capLines (lines : List (List Char)) : Option ℕ → List (List Char)
  | none => lines
  | some k => if k = 0 then lines else lines.take k

/-- An output record of EC_v5: `{"id": ..., "predicted_emotion": ...}`.
On the normal path the emotion is a string, but the in-`except` default
`choices[0]` can be any JSON value, hence `JsonVal`. -/
structure ECRec where
  id : JsonVal
  predicted_emotion : JsonVal

/-- Classification of `', '.join(choices)`: joining succeeds for a list
of strings or a string (joining its characters); any other value raises
`TypeError`.  A dict of string keys would also join, but then
`choices[i]` in `extract_emotion` raises `KeyError` unless the JSON tier
short-circuits; that corner is conservatively mapped to the exception
path. -/
def joinableChoices : JsonVal → Option (List (List Char))
  | .arr els =>
      els.foldr (fun e acc =>
        match e, acc with
        | .str s, some l => some (s :: l)
        | _, _ => none) (some [])
  | .str s => some (s.map (fun c => [c]))
  | _ => none

/-- `choices[0] if choices else "Delight"` from the two exception
handlers of `process_single_example`: Python truthiness on the raw
`choices` value, then subscripting, which raises for a truthy dict, a
nonzero int, a float, or `True`.  (`0.0` is falsy in Python; the float
case is approximated as always raising, which no claim depends on.) -/
def ecDefaultRecord (idv : JsonVal) (choicesV : JsonVal) : Except Unit ECRec :=
  match choicesV with
  | .arr [] => .ok ⟨idv, .str (lchars "Delight")⟩
  | .arr (x :: _) => .ok ⟨idv, x⟩
  | .str [] => .ok ⟨idv, .str (lchars "Delight")⟩
  | .str (c :: _) => .ok ⟨idv, .str [c]⟩
  | .obj [] => .ok ⟨idv, .str (lchars "Delight")⟩
  | .obj (_ :: _) => .error ()
  | .int n => if n = 0 then .ok ⟨idv, .str (lchars "Delight")⟩ else .error ()
  | .numOther _ => .error ()
  | .bool b => if b then .error () else .ok ⟨idv, .str (lchars "Delight")⟩
  | .null => .ok ⟨idv, .str (lchars "Delight")⟩

/-- `OllamaJSONLProcessor.process_single_example`, given the model-call
outcome for this example (`none` = `ollama.generate` raised).  `.error`
models an exception escaping the method (only possible from the default
expression in its own handler). -/
def ec_process_single (oracleResp : Option (List Char))
    (kvs : List (List Char × JsonVal)) : Except Unit ECRec :=
  let idv := jGetD kvs (lchars "id") .null
  let choicesV := jGetD kvs (lchars "choices") (.arr [])
  match joinableChoices choicesV with
  | some choiceStrs =>
      match oracleResp with
      | some resp => .ok ⟨idv, .str (extract_emotion resp choiceStrs)⟩
      | none => ecDefaultRecord idv choicesV
  | none => ecDefaultRecord idv choicesV

/-- The per-line sentinel of `process_jsonl_file`'s exception handlers:
`{"id": i, "predicted_emotion": "Delight"}` with the zero-based index. -/
def ec_sentinel (i : ℕ) : ECRec := ⟨.int i, .str (lchars "Delight")⟩

/-- One iteration of `EC_v5.process_jsonl_file`'s loop: parse the
stripped line; a parse failure, a non-dict line (whose `.get` raises),
or an exception escaping `process_single_example` all append the
sentinel; otherwise the record built by `process_single_example`. -/
def ec_process_line (oracle : ℕ → Option (List Char)) (i : ℕ) (line : List Char) : ECRec :=
  match pyJsonLoads (pyStrip line) with
  | some (.obj kvs) =>
      match ec_process_single (oracle i) kvs with
      | .ok r => r
      | .error _ => ec_sentinel i
  | some _ => ec_sentinel i
  | none => ec_sentinel i

/-- `EC_v5.process_jsonl_file`: the accumulated `self.results` after the
loop, for a given model oracle and record cap. -/
def ec_run (oracle : ℕ → Option (List Char)) (lines : List (List Char))
    (cap : Option ℕ) : List ECRec :=
  (enumF 0 (capLines lines cap)).map (fun p => ec_process_line oracle p.1 p.2)

/-- `EC_v5.save_results`: each in-memory record is re-projected onto
exactly the `id` and `predicted_emotion` fields. -/
def ec_save_results (results : List ECRec) : List JsonVal :=
  results.map (fun r => .obj [(lchars "id", r.id), (lchars "predicted_emotion", r.predicted_emotion)])

/-! ## ED_v2.py / ES_v1.py — retry controller (`generate_response`) -/

/-- Outcome of one `requests.post` attempt, as a network oracle: either a
`RequestException` (network error, timeout, or `raise_for_status` on a
non-2xx reply) or an HTTP success whose body is `s`. -/
inductive NetOutcome where
  | netFail : NetOutcome
  | body (s : List Char) : NetOutcome

/-- Observable result of `generate_response`: the returned text or an
uncaught exception, plus how many attempts were made and how many fixed
2-second sleeps were taken. -/
structure GenRun where
  result : Except Unit (List Char)
  attempts : ℕ
  sleeps : ℕ

/-- `result.get("response", "").strip()`: a string strips and returns; any
other value raises `AttributeError` (`.strip` on a non-str). -/
def genResponseField : JsonVal → GenRun
  | .str t => ⟨.ok (pyStrip t), 1, 0⟩
  | _ => ⟨.error (), 1, 0⟩

/-- Handling of a parsed envelope: a decode failure retries (see above);
a non-object raises (`.get` on a non-dict); an object reads
`"response"`. `canRetry` is `attempt < max_retries - 1`; `r` is the rest
of the loop. -/
def genEnvelope : Option JsonVal → Bool → GenRun → GenRun
  | none, canRetry, r =>
      if canRetry then ⟨r.result, r.attempts + 1, r.sleeps + 1⟩ else ⟨.ok [], 1, 0⟩
  | some (.obj kvs), _, _ => genResponseField (jGetD kvs (lchars "response") (.str []))
  | some _, _, _ => ⟨.error (), 1, 0⟩

/-- One attempt of the retry loop. -/
def genAttempt (o : NetOutcome) (canRetry : Bool) (r : GenRun) : GenRun :=
  match o with
  | .netFail =>
      if canRetry then ⟨r.result, r.attempts + 1, r.sleeps + 1⟩ else ⟨.ok [], 1, 0⟩
  | .body s => genEnvelope (pyJsonLoads s) canRetry r

/-- The retry loop of `generate_response` (both ED_v2 and ES_v1 have the
identical function), from attempt number `attempt` with `fuel` attempts
left.  `response.json()` raising on an unparsable body is
`requests.exceptions.JSONDecodeError`, which (requests >= 2.27) is a
`RequestException` subclass, so the first handler catches it and retries;
the dedicated `json.JSONDecodeError` handler is unreachable.  A body that
parses to JSON that is not an object, or whose `"response"` entry is not
a string, raises `AttributeError` (`.get` / `.strip` on the wrong type),
which no handler catches. -/
def genGo (oracle : ℕ → NetOutcome) (maxRetries : ℕ) : ℕ → ℕ → GenRun
  | _, 0 => ⟨.ok [], 0, 0⟩
  | attempt, fuel + 1 =>
      genAttempt (oracle attempt) (decide (attempt < maxRetries - 1))
        (genGo oracle maxRetries (attempt + 1) fuel)

/-- `generate_response(prompt, max_retries)`, abstracted over the network
oracle (the prompt does not influence control flow). -/
def generate_response (oracle : ℕ → NetOutcome) (maxRetries : ℕ) : GenRun :=
  genGo oracle maxRetries 0 maxRetries

/-- A transient failure of one attempt: a `RequestException` or a body
that fails JSON decoding. -/
def transientB : NetOutcome → Bool
  | .netFail => true
  | .body s => (pyJsonLoads s).isNone

/-- An attempt outcome that cannot reach the `AttributeError` paths: any
failure, or a body parsing to an object whose `"response"` entry (default
`""`) is a string. -/
def respFieldOk : JsonVal → Bool
  | .str _ => true
  | _ => false

def envGoodVal : Option JsonVal → Bool
  | none => true
  | some (.obj kvs) => respFieldOk (jGetD kvs (lchars "response") (.str []))
  | some _ => false

def envGoodB : NetOutcome → Bool
  | .netFail => true
  | .body s => envGoodVal (pyJsonLoads s)

/-! ## ED_v2.py — inconsistency-index extraction -/

/-- The fenced-block regex `` ```json\s*(.*?)\s*``` `` with `re.DOTALL`
(shared by ED_v2 and ES_v1). -/
def fencedJsonPat : List RItem :=
  [.lit (lchars "```json"),
   .rep false false false .space,
   .rep true true false (.dot true),
   .rep false false false .space,
   .lit (lchars "```")]

/-- The labeled-number patterns of `_extract_index_manually`, in order,
compiled for `re.IGNORECASE` (the text is lowercased before matching;
the literals are already lowercase). -/
def edManualPats : List (List RItem) :=
  [[.lit (lchars "\"index\""), .rep false false false .space, .one (.lit ':'),
    .rep false false false .space, .rep false true true .digit],
   [.lit (lchars "index"), .rep false false false .space, .one (.lit ':'),
    .rep false false false .space, .rep false true true .digit],
   [.lit (lchars "不一致"), .rep true false false (.dot false), .rep false true true .digit],
   [.lit (lchars "inconsistent"), .rep true false false (.dot false), .rep false true true .digit],
   [.lit (lchars "index"), .rep false false false .space, .one (.lit '='),
    .rep false false false .space, .rep false true true .digit]]

/-- `\b\d+\b`, the first-bare-integer fallback (`re.findall` followed by
`numbers[0]` is the leftmost match). -/
def edNumberTokenPat : List RItem :=
  [.wordB, .rep false true true .digit, .wordB]

/-- Try the manual patterns in order; a matched group is fed to `int()`
(which cannot fail on an all-digit group, mirrored by `toIntOfDigits`). -/
def edTryPatterns : List (List RItem) → List Char → Option ℕ
  | [], _ => none
  | p :: ps, t =>
      match reSearch p t with
      | some (_, some g) =>
          match toIntOfDigits g with
          | some n => some n
          | none => edTryPatterns ps t
      | some (_, none) => edTryPatterns ps t
      | none => edTryPatterns ps t

/-- `OllamaEmotionProcessor._extract_index_manually`: labeled patterns
first, then the first bare integer token, else `-1`.  The findall runs on
the original-case text (digits are unaffected by case). -/
def extract_index_manually (text : List Char) : ℤ :=
  match edTryPatterns edManualPats (pyLower text) with
  | some n => (n : ℤ)
  | none =>
      match reSearch edNumberTokenPat text with
      | some (_, some g) =>
          match toIntOfDigits g with
          | some n => (n : ℤ)
          | none => -1
      | _ => -1

/-- The body of `extract_index_from_response`'s `try` block applied to a
`json.loads` outcome: an object yields its `"index"` entry verbatim
(default `-1`), a non-object raises `AttributeError` (`.get` on a
non-dict), modelled as `.error`, and a `JSONDecodeError` falls back to
manual extraction. -/
def edIndexOfParsed (response_text : List Char) : Option JsonVal → Except Unit JsonVal
  | some (.obj kvs) => .ok (jGetD kvs (lchars "index") (.int (-1)))
  | some _ => .error ()
  | none => .ok (.int (extract_index_manually response_text))

/-- `OllamaEmotionProcessor.extract_index_from_response`: empty text is
`-1`; the fenced-block tier, then the whole-text tier, feed
`json.loads` into the `try` body above. -/
def extract_index_from_response (response_text : List Char) : Except Unit JsonVal :=
  if response_text = [] then .ok (.int (-1))
  else
    match reSearch fencedJsonPat response_text with
    | some (_, some g) => edIndexOfParsed response_text (pyJsonLoads g)
    | _ => edIndexOfParsed response_text (pyJsonLoads response_text)

/-- An output record of ED_v2: `{"id": line_index, "predicted_index": v}`. -/
structure EDRec where
  id : ℕ
  predicted_index : JsonVal

/-- Per-line effect of ED_v2's loop: a blank line is skipped before any
work; `preErr` is an exception raised before the model call (JSON parse
failure or prompt construction); `called r` means `generate_response`
ran, with `r = none` when a later exception suppressed the output
record. -/
inductive EDEff where
  | skip : EDEff
  | preErr : EDEff
  | called (r : Option EDRec) : EDEff

/-- Whether `build_prompt` survives the `"text"` value: `len()` then
iterating items whose `.get` is called, so a list must contain only
dicts; a non-empty dict iterates string keys (whose `.get` raises) and a
non-empty string iterates characters; other values fail `len()`. -/
def ed_prompt_ok : JsonVal → Bool
  | .arr els => els.all (fun e => match e with | .obj _ => true | _ => false)
  | .obj kvs => kvs.isEmpty
  | .str s => s.isEmpty
  | _ => false

/-- One iteration of `ED_v2.process_jsonl_file`'s loop.  `respond i` is
the observable outcome of `generate_response` for zero-based line `i`
(its `.error` is the uncaught `AttributeError` of a bad envelope). -/
def ed_line_step (respond : ℕ → Except Unit (List Char)) (caseId : ℕ)
    (line : List Char) : EDEff :=
  let l := pyStrip line
  if l = [] then .skip
  else
    match pyJsonLoads l with
    | none => .preErr
    | some (.obj kvs) =>
        if ed_prompt_ok (jGetD kvs (lchars "text") (.arr [])) then
          match respond caseId with
          | .error _ => .called none
          | .ok resp =>
              match extract_index_from_response resp with
              | .error _ => .called none
              | .ok idxv => .called (some ⟨caseId, idxv⟩)
        else .preErr
    | some _ => .preErr

/-- Records a per-line effect contributes to the output file. -/
def edEffOuts : EDEff → List EDRec
  | .called (some r) => [r]
  | _ => []

/-- Whether a per-line effect involved a model call. -/
def edEffCalled : EDEff → Bool
  | .called _ => true
  | _ => false

/-- `ED_v2.process_jsonl_file`: per-line effects (the cap `max_lines` is
truthy-checked like EC's). -/
def ed_run_effs (respond : ℕ → Except Unit (List Char)) (lines : List (List Char))
    (cap : Option ℕ) : List EDEff :=
  (enumF 0 (capLines lines cap)).map (fun p => ed_line_step respond p.1 p.2)

/-- The records written to ED_v2's output file, in order. -/
def ed_run_outs (respond : ℕ → Except Unit (List Char)) (lines : List (List Char))
    (cap : Option ℕ) : List EDRec :=
  ((ed_run_effs respond lines cap).map edEffOuts).flatten

/-! ## ES_v1.py — structured-field summarization -/

/-- The five declared result fields, in declaration order. -/
def esFields : List (List Char) :=
  [lchars "predicted_cause", lchars "predicted_symptoms",
   lchars "predicted_treatment_process", lchars "predicted_illness_Characteristics",
   lchars "predicted_treatment_effect"]

/-- The empty-response dictionary of `extract_json_from_response`. -/
def esErrDict : List (List Char × JsonVal) :=
  esFields.map (fun f => (f, .str (lchars "ERROR: Empty response")))

/-- The "not extracted" marker of `_extract_fields_manually`
(`"未提取到相关信息"`). -/
def esMarker : List Char := lchars "未提取到相关信息"

/-- The per-field pattern lists of `_extract_fields_manually`, compiled
for `re.IGNORECASE | re.DOTALL` (text lowercased; literals lowercase;
`.` matches newlines). -/
def esFieldPatterns : List (List Char × List (List RItem)) :=
  [(lchars "predicted_cause",
    [[.lit (lchars "\"predicted_cause\""), .rep false false false .space, .one (.lit ':'),
      .rep false false false .space, .one (.lit '"'), .rep false true false (.cls true ['"']),
      .one (.lit '"')],
     [.lit (lchars "cause"), .opt (.lit 's'), .opt (.cls false ['"', '\x27']),
      .rep false false false .space, .one (.lit ':'), .rep false false false .space,
      .opt (.cls false ['"', '\x27']), .rep false true false (.cls true ['"', '\x27'])]]),
   (lchars "predicted_symptoms",
    [[.lit (lchars "\"predicted_symptoms\""), .rep false false false .space, .one (.lit ':'),
      .rep false false false .space, .one (.lit '"'), .rep false true false (.cls true ['"']),
      .one (.lit '"')],
     [.lit (lchars "symptom"), .opt (.lit 's'), .opt (.cls false ['"', '\x27']),
      .rep false false false .space, .one (.lit ':'), .rep false false false .space,
      .opt (.cls false ['"', '\x27']), .rep false true false (.cls true ['"', '\x27'])]]),
   (lchars "predicted_treatment_process",
    [[.lit (lchars "\"predicted_treatment_process\""), .rep false false false .space,
      .one (.lit ':'), .rep false false false .space, .one (.lit '"'),
      .rep false true false (.cls true ['"']), .one (.lit '"')],
     [.lit (lchars "treatment"), .one (.dot true), .lit (lchars "process"),
      .opt (.cls false ['"', '\x27']), .rep false false false .space, .one (.lit ':'),
      .rep false false false .space, .opt (.cls false ['"', '\x27']),
      .rep false true false (.cls true ['"', '\x27'])]]),
   (lchars "predicted_illness_Characteristics",
    [[.lit (lchars "\"predicted_illness_characteristics\""), .rep false false false .space,
      .one (.lit ':'), .rep false false false .space, .one (.lit '"'),
      .rep false true false (.cls true ['"']), .one (.lit '"')],
     [.lit (lchars "characteristics"), .opt (.cls false ['"', '\x27']),
      .rep false false false .space, .one (.lit ':'), .rep false false false .space,
      .opt (.cls false ['"', '\x27']), .rep false true false (.cls true ['"', '\x27'])]]),
   (lchars "predicted_treatment_effect",
    [[.lit (lchars "\"predicted_treatment_effect\""), .rep false false false .space,
      .one (.lit ':'), .rep false false false .space, .one (.lit '"'),
      .rep false true false (.cls true ['"']), .one (.lit '"')],
     [.lit (lchars "treatment"), .one (.dot true), .lit (lchars "effect"),
      .opt (.cls false ['"', '\x27']), .rep false false false .space, .one (.lit ':'),
      .rep false false false .space, .opt (.cls false ['"', '\x27']),
      .rep false true false (.cls true ['"', '\x27'])]])]

/-- First matching pattern's stripped group for one field. -/
def esTryPatterns : List (List RItem) → List Char → Option (List Char)
  | [], _ => none
  | p :: ps, t =>
      match reSearch p t with
      | some (_, some g) => some (pyStrip g)
      | some (_, none) => esTryPatterns ps t
      | none => esTryPatterns ps t

/-- The value `_extract_fields_manually` leaves for a field: the first
pattern's stripped group if it matched and is non-empty (a falsy value is
replaced), else the marker. -/
def esFieldValue (o : Option (List Char)) : List Char :=
  match o with
  | some g => if g = [] then esMarker else g
  | none => esMarker

/-- `OllamaJSONLProcessor._extract_fields_manually` (ES_v1): every
declared field is bound, unmatched or empty matches becoming the
marker. -/
def extract_fields_manually (text : List Char) : List (List Char × JsonVal) :=
  let tl := pyLower text
  esFieldPatterns.map (fun fp => (fp.1, .str (esFieldValue (esTryPatterns fp.2 tl))))

/-- The body of `extract_json_from_response`'s `try` block applied to a
`json.loads` outcome: a parse success is returned **as-is** (whatever
value it is), a `JSONDecodeError` falls back to manual field
extraction. -/
def esOfParsed (response_text : List Char) : Option JsonVal → JsonVal
  | some v => v
  | none => .obj (extract_fields_manually response_text)

/-- `OllamaJSONLProcessor.extract_json_from_response` (ES_v1): the empty
response yields the ERROR dictionary; the fenced-block tier, then the
whole-text tier, feed `json.loads` into the `try` body above. -/
def extract_json_from_response (response_text : List Char) : JsonVal :=
  if response_text = [] then .obj esErrDict
  else
    match reSearch fencedJsonPat response_text with
    | some (_, some g) => esOfParsed response_text (pyJsonLoads g)
    | _ => esOfParsed response_text (pyJsonLoads response_text)

/-- The result dictionary built by `ES_v1.process_single_case` from the
extraction result and the case data: `id` plus the five fields via
`.get(field, "")`; `.get` on a non-dict extraction raises. -/
def es_case_fields (extracted : JsonVal) (kvs : List (List Char × JsonVal)) :
    Except Unit (List (List Char × JsonVal)) :=
  match extracted with
  | .obj ekvs =>
      .ok ((lchars "id", jGetD kvs (lchars "id") (.str (lchars "unknown")))
        :: esFields.map (fun f => (f, jGetD ekvs f (.str []))))
  | _ => .error ()

/-- Per-line effect of ES_v1's loop (same skeleton as ED_v2). -/
inductive ESEff where
  | skip : ESEff
  | preErr : ESEff
  | called (r : Option (List (List Char × JsonVal))) : ESEff

/-- Whether `build_prompt` survives: `" ".join(x)` on a list value of
`case_description` / `consultation_process` needs all-string elements;
non-list values go through `str()`, which never raises. -/
def esJoinOk : JsonVal → Bool
  | .arr els => els.all (fun e => match e with | .str _ => true | _ => false)
  | _ => true

def es_prompt_ok (kvs : List (List Char × JsonVal)) : Bool :=
  esJoinOk (jGetD kvs (lchars "case_description") (.arr [])) &&
  esJoinOk (jGetD kvs (lchars "consultation_process") (.arr []))

/-- One iteration of `ES_v1.process_jsonl_file`'s loop. -/
def es_line_step (respond : ℕ → Except Unit (List Char)) (i : ℕ)
    (line : List Char) : ESEff :=
  let l := pyStrip line
  if l = [] then .skip
  else
    match pyJsonLoads l with
    | none => .preErr
    | some (.obj kvs) =>
        if es_prompt_ok kvs then
          match respond i with
          | .error _ => .called none
          | .ok resp =>
              match es_case_fields (extract_json_from_response resp) kvs with
              | .ok out => .called (some out)
              | .error _ => .called none
        else .preErr
    | some _ => .preErr

def esEffOuts : ESEff → List (List (List Char × JsonVal))
  | .called (some r) => [r]
  | _ => []

def esEffCalled : ESEff → Bool
  | .called _ => true
  | _ => false

/-- `ES_v1.process_jsonl_file`: per-line effects. -/
def es_run_effs (respond : ℕ → Except Unit (List Char)) (lines : List (List Char))
    (cap : Option ℕ) : List ESEff :=
  (enumF 0 (capLines lines cap)).map (fun p => es_line_step respond p.1 p.2)

/-! ## QA_v3.py — yes/no classification and response cleaning -/

/-- The leading auxiliary verbs of `is_yes_no_question`'s pattern list,
in order; each pattern `^word\s+` is applied with `re.match`. -/
def qaAuxWords : List String :=
  ["is", "are", "does", "do", "did", "was", "were", "has", "have", "had",
   "can", "could", "will", "would", "should", "must", "may", "might"]

def qaAuxPats : List (List RItem) :=
  qaAuxWords.map (fun w => [.bol, .lit (lchars w), .rep false false true .space])

/-- The explicit yes/no phrasings checked by substring (with their
leading spaces, as in the source). -/
def qaPhrases : List (List Char) :=
  [lchars " yes or no", lchars " true or false", lchars " correct or incorrect"]

/-- `OllamaLiteratureProcessor.is_yes_no_question`. -/
def is_yes_no_question (question : List Char) : Bool :=
  let ql := pyLower (pyStrip question)
  qaAuxPats.any (fun p => (reMatch p ql).isSome) ||
    qaPhrases.any (fun ph => containsSub ph ql)

/-- `^\s*yes\s*$` / `^\s*no\s*$` of `clean_response` (applied with
`re.match` to the already-lowercased response). -/
def qaYesPat : List RItem :=
  [.bol, .rep false false false .space, .lit (lchars "yes"),
   .rep false false false .space, .eol]

def qaNoPat : List RItem :=
  [.bol, .rep false false false .space, .lit (lchars "no"),
   .rep false false false .space, .eol]

/-- `OllamaLiteratureProcessor.clean_response`: strip; for a yes/no
question normalize to exactly `"yes"`/`"no"` via the whole-string match,
then the first whitespace-token, else truncate to 50 characters; other
questions are truncated to 200 characters. -/
def clean_response (response0 : List Char) (is_yes_no : Bool) : List Char :=
  let response := pyStrip response0
  if is_yes_no then
    let response_lower := pyLower response
    if (reMatch qaYesPat response_lower).isSome then lchars "yes"
    else if (reMatch qaNoPat response_lower).isSome then lchars "no"
    else
      let first_word := pyLower ((pySplit response).headD [])
      if first_word = lchars "yes" ∨ first_word = lchars "no" then first_word
      else response.take 50
  else response.take 200

/-- An in-memory result record of `QA_v3.process_single_example`: it
carries the two diagnostic fields besides `id` and the answer. -/
structure QAResult where
  id : JsonVal
  predicted_answer : JsonVal
  is_yes_no_q : Bool
  original_response : List Char

/-- `QA_v3.save_results`: each in-memory record is projected onto exactly
the `id` and `predicted_answer` fields; the diagnostic fields
(`is_yes_no_question`, `original_response`) are dropped. -/
def qa_save_results (results : List QAResult) : List JsonVal :=
  results.map (fun r => .obj [(lchars "id", r.id), (lchars "predicted_answer", r.predicted_answer)])

/-- Does the input reach `_extract_index_manually` (both JSON tiers
fail)? -/
def edJsonTierFails (t : List Char) : Bool :=
  match reSearch fencedJsonPat t with
  | some (_, some g) => (pyJsonLoads g).isNone
  | _ => (pyJsonLoads t).isNone

/-- Does the input reach `_extract_fields_manually` in ES_v1 (non-empty
and both JSON tiers fail)? -/
def esManualPath (t : List Char) : Bool :=
  if t = [] then false
  else
    match reSearch fencedJsonPat t with
    | some (_, some g) => (pyJsonLoads g).isNone
    | _ => (pyJsonLoads t).isNone

/-! ## Helper lemmas -/

theorem enumF_length (n : ℕ) (l : List α) : (enumF n l).length = l.length := by
  induction l generalizing n with
  | nil => rfl
  | cons a as ih => simp [enumF, ih]

theorem enumF_getElem? (n : ℕ) (l : List α) (i : ℕ) :
    (enumF n l)[i]? = l[i]?.map (fun a => (n + i, a)) := by
  induction l generalizing n i with
  | nil => simp [enumF]
  | cons a as ih =>
      cases i with
      | zero => simp [enumF]
      | succ j => simpa [enumF, Nat.add_assoc, Nat.add_comm 1 j] using ih (n + 1) j

theorem ec_tier2_mem (cs : List (List Char)) (rl x : List Char)
    (h : ec_tier2 cs rl = some x) : x ∈ cs := by
  induction cs with
  | nil => simp [ec_tier2] at h
  | cons c cs ih =>
      simp only [ec_tier2] at h
      by_cases hc : containsSub (pyLower c) rl = true
      · rw [if_pos hc] at h
        injection h with h
        subst h
        exact List.mem_cons_self _ _
      · rw [if_neg hc] at h
        exact List.mem_cons_of_mem c (ih h)

theorem ec_tier3_mem (tbl : List (List Char × List (List Char)))
    (choices : List (List Char)) (rl x : List Char)
    (h : ec_tier3 tbl choices rl = some x) : x ∈ choices := by
  induction tbl with
  | nil => simp [ec_tier3] at h
  | cons p tbl ih =>
      obtain ⟨emo, pats⟩ := p
      simp only [ec_tier3] at h
      by_cases hm : emo ∈ choices
      · rw [if_pos hm] at h
        by_cases ha : pats.any (fun q => containsSub q rl) = true
        · rw [if_pos ha] at h
          injection h with h
          subst h
          exact hm
        · rw [if_neg ha] at h
          exact ih h
      · rw [if_neg hm] at h
        exact ih h

theorem ec_lower_tiers_mem (t : List Char) (choices : List (List Char))
    (h : choices ≠ []) : ec_lower_tiers t choices ∈ choices := by
  unfold ec_lower_tiers
  cases h2 : ec_tier2 choices (pyLower t) with
  | some c => exact ec_tier2_mem _ _ _ h2
  | none =>
      cases h3 : ec_tier3 ec_emotion_patterns choices (pyLower t) with
      | some e => exact ec_tier3_mem _ _ _ _ h3
      | none =>
          cases choices with
          | nil => exact absurd rfl h
          | cons c cs => exact List.mem_cons_self _ _

/-! ## C1 -/

/-- C1: for every raw model text (including the empty string) and every
non-empty choice list, `extract_emotion` returns a member of the choice
list, whichever cascade tier produced it. -/
theorem extract_emotion_mem_choices (t : List Char) (choices : List (List Char))
    (h : choices ≠ []) : extract_emotion t choices ∈ choices := by
  unfold extract_emotion
  cases hj : extract_emotion_from_json t with
  | none => exact ec_lower_tiers_mem t choices h
  | some v =>
      cases v with
      | str e =>
          show (if e ≠ [] ∧ e ∈ choices then e else ec_lower_tiers t choices) ∈ choices
          by_cases hc : e ≠ [] ∧ e ∈ choices
          · rw [if_pos hc]
            exact hc.2
          · rw [if_neg hc]
            exact ec_lower_tiers_mem t choices h
      | null => exact ec_lower_tiers_mem t choices h
      | bool b => exact ec_lower_tiers_mem t choices h
      | int n => exact ec_lower_tiers_mem t choices h
      | numOther l => exact ec_lower_tiers_mem t choices h
      | arr l => exact ec_lower_tiers_mem t choices h
      | obj kvs => exact ec_lower_tiers_mem t choices h

/-- Witness for C1 at the empty text and a singleton choice list. -/
theorem extract_emotion_mem_choices_witness :
    extract_emotion [] [lchars "Delight"] ∈ [lchars "Delight"] :=
  extract_emotion_mem_choices [] [lchars "Delight"] (by decide)

/-! ## C2 -/

/-- C2 counterexample: ED_v2's pipeline writes **no** output record for a
line that fails JSON parsing (its handler only counts the error), so one
malformed input line yields zero output records, not one. -/
theorem ed_pipeline_drops_malformed_line :
    (ed_run_outs (fun _ => Except.ok []) [lchars "not json"] none).length = 0 ∧
    ([lchars "not json"] : List (List Char)).length = 1 :=
  ⟨rfl, rfl⟩

/-- C2 (amended): in EC_v5's pipeline every input line yields exactly one
output record, and a line that fails JSON parsing yields the sentinel
`{"id": i, "predicted_emotion": "Delight"}` at its zero-based index. -/
theorem ec_pipeline_one_record_per_line (oracle : ℕ → Option (List Char))
    (lines : List (List Char)) :
    (ec_run oracle lines none).length = lines.length ∧
    ∀ i li, lines[i]? = some li → pyJsonLoads (pyStrip li) = none →
      (ec_run oracle lines none)[i]? = some (ec_sentinel i) := by
  constructor
  · simp [ec_run, capLines, enumF_length]
  · intro i li hli hparse
    have hcap : capLines lines none = lines := rfl
    simp only [ec_run, hcap, List.getElem?_map, enumF_getElem?, hli, Option.map_some,
      Nat.zero_add]
    simp [ec_process_line, hparse]

/-- Witness for C2's amended theorem on a one-line malformed stream. -/
theorem ec_pipeline_one_record_per_line_witness :
    (ec_run (fun _ => none) [lchars "not json"] none).length = 1 ∧
    (ec_run (fun _ => none) [lchars "not json"] none)[0]? = some (ec_sentinel 0) :=
  ⟨(ec_pipeline_one_record_per_line (fun _ => none) [lchars "not json"]).1,
   (ec_pipeline_one_record_per_line (fun _ => none) [lchars "not json"]).2 0
     (lchars "not json") rfl rfl⟩

/-! ## C3 -/

/-- C3 counterexample: `extract_index_from_response` never sees the
candidate list and performs no range check; on `"abc 100"` it returns
`100`, which neither lies below any 3-element candidate range nor is
`-1`. -/
theorem extract_index_range_claim_false :
    ¬ ∀ (t : List Char) (n : ℕ), ∃ k : ℤ,
        extract_index_from_response t = .ok (.int k) ∧
        ((0 ≤ k ∧ k < (n : ℤ)) ∨ k = -1) := by
  intro h
  obtain ⟨k, hk, hr⟩ := h (lchars "abc 100") 3
  rw [show extract_index_from_response (lchars "abc 100") = .ok (.int 100) from rfl] at hk
  simp only [Except.ok.injEq, JsonVal.int.injEq] at hk
  subst hk
  rcases hr with ⟨_, hlt⟩ | he
  · norm_num at hlt
  · norm_num at he

theorem extract_index_manually_ge (t : List Char) : -1 ≤ extract_index_manually t := by
  unfold extract_index_manually
  split
  · omega
  · split
    · split
      · omega
      · omega
    · omega

/-- C3 (amended): whenever both JSON tiers fail to parse (including the
empty text), `extract_index_from_response` returns an integer `≥ -1` —
with no upper-range guarantee, since the candidate list is never
consulted. -/
theorem extract_index_manual_tier_int (t : List Char) (h : edJsonTierFails t = true) :
    ∃ n : ℤ, extract_index_from_response t = .ok (.int n) ∧ -1 ≤ n := by
  by_cases ht : t = []
  · subst ht
    exact ⟨-1, rfl, by norm_num⟩
  · refine ⟨extract_index_manually t, ?_, extract_index_manually_ge t⟩
    unfold edJsonTierFails at h
    unfold extract_index_from_response
    rw [if_neg ht]
    cases hm : reSearch fencedJsonPat t with
    | none =>
        rw [hm] at h
        have hp : pyJsonLoads t = none := Option.isNone_iff_eq_none.mp h
        show edIndexOfParsed t (pyJsonLoads t) = _
        rw [hp]
        rfl
    | some p =>
        obtain ⟨m, gO⟩ := p
        cases gO with
        | none =>
            rw [hm] at h
            have hp : pyJsonLoads t = none := Option.isNone_iff_eq_none.mp h
            show edIndexOfParsed t (pyJsonLoads t) = _
            rw [hp]
            rfl
        | some g =>
            rw [hm] at h
            have hp : pyJsonLoads g = none := Option.isNone_iff_eq_none.mp h
            show edIndexOfParsed t (pyJsonLoads g) = _
            rw [hp]
            rfl

/-- Witness for C3's amended theorem at `"abc 100"`. -/
theorem extract_index_manual_tier_int_witness :
    edJsonTierFails (lchars "abc 100") = true ∧
    ∃ n : ℤ, extract_index_from_response (lchars "abc 100") = .ok (.int n) ∧ -1 ≤ n :=
  ⟨rfl, extract_index_manual_tier_int (lchars "abc 100") rfl⟩

/-! ## C4 -/

/-- C4 counterexample: on the response `"{}"`, a bare JSON parse
succeeds and `extract_json_from_response` returns the parsed object
**as-is** — an empty dictionary in which the declared field
`predicted_cause` (like all five fields) is absent. -/
theorem extract_json_passthrough_omits_keys :
    extract_json_from_response (lchars "\x7b\x7d") = .obj [] ∧
    jLookup (extract_json_from_response (lchars "\x7b\x7d")) (lchars "predicted_cause") = none :=
  ⟨rfl, rfl⟩

theorem esFieldValue_ne_nil (o : Option (List Char)) : esFieldValue o ≠ [] := by
  unfold esFieldValue
  cases o with
  | none => decide
  | some g =>
      show (if g = [] then esMarker else g) ≠ []
      by_cases hg : g = []
      · rw [if_pos hg]
        decide
      · rw [if_neg hg]
        exact hg

theorem extract_fields_manually_keys (t : List Char) :
    (extract_fields_manually t).map (fun p => p.1) = esFields := rfl

/-- C4 (amended): on the manual-extraction path (non-empty response whose
JSON tiers fail) the result carries exactly the five declared field keys
and every value is a non-empty string — the marker `"未提取到相关信息"` when
nothing was matched; a **successful** JSON parse is returned as-is and
may omit keys or hold `null`; and the record built by
`process_single_case` always carries `id` plus all five keys (missing
ones defaulting to `""`). -/
theorem es_fields_present_on_manual_and_case :
    (∀ t, esManualPath t = true →
        jKeys (extract_json_from_response t) = esFields ∧
        ∀ f v, (f, v) ∈ extract_fields_manually t → ∃ s, v = .str s ∧ s ≠ []) ∧
    (∀ ex kvs out, es_case_fields ex kvs = .ok out →
        out.map (fun p => p.1) = lchars "id" :: esFields) := by
  constructor
  · intro t h
    unfold esManualPath at h
    by_cases ht : t = []
    · rw [if_pos ht] at h
      exact absurd h (by decide)
    · rw [if_neg ht] at h
      constructor
      · have hman : extract_json_from_response t = .obj (extract_fields_manually t) := by
          unfold extract_json_from_response
          rw [if_neg ht]
          cases hm : reSearch fencedJsonPat t with
          | none =>
              rw [hm] at h
              have hp : pyJsonLoads t = none := Option.isNone_iff_eq_none.mp h
              show esOfParsed t (pyJsonLoads t) = _
              rw [hp]
              rfl
          | some p =>
              obtain ⟨m, gO⟩ := p
              cases gO with
              | none =>
                  rw [hm] at h
                  have hp : pyJsonLoads t = none := Option.isNone_iff_eq_none.mp h
                  show esOfParsed t (pyJsonLoads t) = _
                  rw [hp]
                  rfl
              | some g =>
                  rw [hm] at h
                  have hp : pyJsonLoads g = none := Option.isNone_iff_eq_none.mp h
                  show esOfParsed t (pyJsonLoads g) = _
                  rw [hp]
                  rfl
        rw [hman]
        exact extract_fields_manually_keys t
      · intro f v hmem
        unfold extract_fields_manually at hmem
        obtain ⟨fp, _, heq⟩ := List.mem_map.mp hmem
        cases heq
        exact ⟨_, rfl, esFieldValue_ne_nil _⟩
  · intro ex kvs out hout
    cases ex with
    | obj ekvs =>
        unfold es_case_fields at hout
        injection hout with hout
        subst hout
        rfl
    | null => exact absurd hout (by simp [es_case_fields])
    | bool b => exact absurd hout (by simp [es_case_fields])
    | int n => exact absurd hout (by simp [es_case_fields])
    | numOther l => exact absurd hout (by simp [es_case_fields])
    | str s => exact absurd hout (by simp [es_case_fields])
    | arr l => exact absurd hout (by simp [es_case_fields])

/-- Witness for C4's amended theorem at the unparsable response `"x"` and
at a successfully built case record. -/
theorem es_fields_present_on_manual_and_case_witness :
    jKeys (extract_json_from_response (lchars "x")) = esFields ∧
    ((lchars "id", JsonVal.str (lchars "unknown"))
        :: esFields.map (fun f => (f, JsonVal.str []))).map (fun p => p.1)
      = lchars "id" :: esFields :=
  ⟨(es_fields_present_on_manual_and_case.1 (lchars "x") rfl).1,
   es_fields_present_on_manual_and_case.2 (.obj []) []
     ((lchars "id", JsonVal.str (lchars "unknown"))
        :: esFields.map (fun f => (f, JsonVal.str []))) rfl⟩

/-! ## C5 -/

/-- C5 counterexample: an HTTP success whose body is the valid JSON `[1]`
(not an object) makes `generate_response` raise `AttributeError`
(`list.get` does not exist) past its boundary on the first attempt. -/
theorem generate_response_raises_on_nonobject_envelope :
    (generate_response (fun _ => .body (lchars "[1]")) 3).result = .error () := rfl

theorem genAttempt_netFail (b : Bool) (r : GenRun) :
    genAttempt .netFail b r =
      if b then ⟨r.result, r.attempts + 1, r.sleeps + 1⟩ else ⟨.ok [], 1, 0⟩ := rfl

theorem genAttempt_body (s : List Char) (b : Bool) (r : GenRun) :
    genAttempt (.body s) b r = genEnvelope (pyJsonLoads s) b r := rfl

theorem genEnvelope_none (b : Bool) (r : GenRun) :
    genEnvelope none b r =
      if b then ⟨r.result, r.attempts + 1, r.sleeps + 1⟩ else ⟨.ok [], 1, 0⟩ := rfl

theorem genResponseField_attempts (v : JsonVal) : (genResponseField v).attempts = 1 := by
  cases v <;> rfl

theorem genAttempt_attempts_le (o : NetOutcome) (b : Bool) (r : GenRun) :
    (genAttempt o b r).attempts ≤ r.attempts + 1 := by
  cases o with
  | netFail =>
      rw [genAttempt_netFail]
      cases b with
      | true => simp
      | false => simp
  | body s =>
      rw [genAttempt_body]
      cases pyJsonLoads s with
      | none =>
          rw [genEnvelope_none]
          cases b with
          | true => simp
          | false => simp
      | some v =>
          cases v <;> simp [genEnvelope, genResponseField_attempts]

theorem genGo_attempts_le (oracle : ℕ → NetOutcome) (maxRetries : ℕ) :
    ∀ fuel attempt, (genGo oracle maxRetries attempt fuel).attempts ≤ fuel := by
  intro fuel
  induction fuel with
  | zero => intro _; exact Nat.le_refl 0
  | succ f ih =>
      intro attempt
      show (genAttempt (oracle attempt) (decide (attempt < maxRetries - 1))
        (genGo oracle maxRetries (attempt + 1) f)).attempts ≤ f + 1
      exact Nat.le_trans (genAttempt_attempts_le _ _ _) (Nat.succ_le_succ (ih (attempt + 1)))

theorem genGo_all_transient (oracle : ℕ → NetOutcome) (maxRetries : ℕ)
    (h : ∀ i, transientB (oracle i) = true) :
    ∀ fuel attempt, attempt + fuel = maxRetries → 1 ≤ fuel →
      genGo oracle maxRetries attempt fuel = ⟨.ok [], fuel, fuel - 1⟩ := by
  intro fuel
  induction fuel with
  | zero => intro attempt _ h1; exact absurd h1 (by omega)
  | succ f ih =>
      intro attempt hsum _
      have ht := h attempt
      show genAttempt (oracle attempt) (decide (attempt < maxRetries - 1))
        (genGo oracle maxRetries (attempt + 1) f) = ⟨.ok [], f + 1, (f + 1) - 1⟩
      cases ho : oracle attempt with
      | netFail =>
          rw [genAttempt_netFail]
          by_cases hf : 1 ≤ f
          · rw [if_pos (decide_eq_true (show attempt < maxRetries - 1 by omega)),
              ih (attempt + 1) (by omega) hf]
            show (⟨.ok [], f + 1, (f - 1) + 1⟩ : GenRun) = ⟨.ok [], f + 1, (f + 1) - 1⟩
            congr 1
            omega
          · rw [if_neg (by simp only [decide_eq_true_eq]; omega)]
            have hf0 : f = 0 := by omega
            rw [hf0]
      | body s =>
          rw [ho] at ht
          have hp : pyJsonLoads s = none := Option.isNone_iff_eq_none.mp ht
          rw [genAttempt_body, hp, genEnvelope_none]
          by_cases hf : 1 ≤ f
          · rw [if_pos (decide_eq_true (show attempt < maxRetries - 1 by omega)),
              ih (attempt + 1) (by omega) hf]
            show (⟨.ok [], f + 1, (f - 1) + 1⟩ : GenRun) = ⟨.ok [], f + 1, (f + 1) - 1⟩
            congr 1
            omega
          · rw [if_neg (by simp only [decide_eq_true_eq]; omega)]
            have hf0 : f = 0 := by omega
            rw [hf0]

theorem genGo_envGood (oracle : ℕ → NetOutcome) (maxRetries : ℕ)
    (h : ∀ i, envGoodB (oracle i) = true) :
    ∀ fuel attempt, ∃ s, (genGo oracle maxRetries attempt fuel).result = .ok s := by
  intro fuel
  induction fuel with
  | zero => intro _; exact ⟨[], rfl⟩
  | succ f ih =>
      intro attempt
      have he := h attempt
      show ∃ s, (genAttempt (oracle attempt) (decide (attempt < maxRetries - 1))
        (genGo oracle maxRetries (attempt + 1) f)).result = .ok s
      cases ho : oracle attempt with
      | netFail =>
          rw [genAttempt_netFail]
          by_cases hlt : decide (attempt < maxRetries - 1) = true
          · rw [if_pos hlt]
            exact ih (attempt + 1)
          · rw [if_neg hlt]
            exact ⟨[], rfl⟩
      | body s =>
          rw [ho] at he
          have he2 : envGoodVal (pyJsonLoads s) = true := he
          rw [genAttempt_body]
          cases hp : pyJsonLoads s with
          | none =>
              rw [genEnvelope_none]
              by_cases hlt : decide (attempt < maxRetries - 1) = true
              · rw [if_pos hlt]
                exact ih (attempt + 1)
              · rw [if_neg hlt]
                exact ⟨[], rfl⟩
          | some v =>
              rw [hp] at he2
              cases v with
              | obj kvs =>
                  have he3 : respFieldOk (jGetD kvs (lchars "response") (.str [])) = true := he2
                  show ∃ s2, (genResponseField (jGetD kvs (lchars "response") (.str []))).result
                    = .ok s2
                  cases hg : jGetD kvs (lchars "response") (.str []) with
                  | str t => exact ⟨pyStrip t, rfl⟩
                  | null => rw [hg] at he3; exact absurd he3 (by simp [respFieldOk])
                  | bool b => rw [hg] at he3; exact absurd he3 (by simp [respFieldOk])
                  | int n => rw [hg] at he3; exact absurd he3 (by simp [respFieldOk])
                  | numOther l => rw [hg] at he3; exact absurd he3 (by simp [respFieldOk])
                  | arr l => rw [hg] at he3; exact absurd he3 (by simp [respFieldOk])
                  | obj kvs2 => rw [hg] at he3; exact absurd he3 (by simp [respFieldOk])
              | null => exact absurd he2 (by simp [envGoodVal])
              | bool b => exact absurd he2 (by simp [envGoodVal])
              | int n => exact absurd he2 (by simp [envGoodVal])
              | numOther l => exact absurd he2 (by simp [envGoodVal])
              | str s2 => exact absurd he2 (by simp [envGoodVal])
              | arr l => exact absurd he2 (by simp [envGoodVal])

/-- C5 (amended): `generate_response` makes at most 3 attempts; when every
attempt fails transiently (`RequestException` or an unparsable body,
which in requests >= 2.27 is itself a `RequestException`) it sleeps the
fixed 2-second backoff between attempts and finally returns the empty
string; and it returns (never raises) whenever every parsed envelope is
an object whose `"response"` entry is a string — but a valid-JSON
non-object envelope (see the counterexample) raises past the boundary. -/
theorem generate_response_retry_contract (oracle : ℕ → NetOutcome) :
    (generate_response oracle 3).attempts ≤ 3 ∧
    ((∀ i, transientB (oracle i) = true) →
        generate_response oracle 3 = ⟨.ok [], 3, 2⟩) ∧
    ((∀ i, envGoodB (oracle i) = true) →
        ∃ s, (generate_response oracle 3).result = .ok s) := by
  refine ⟨genGo_attempts_le oracle 3 3 0, ?_, ?_⟩
  · intro h
    exact genGo_all_transient oracle 3 h 3 0 rfl (by omega)
  · intro h
    exact genGo_envGood oracle 3 h 3 0

/-- Witness for C5's amended theorem at the always-failing oracle. -/
theorem generate_response_retry_contract_witness :
    (generate_response (fun _ => NetOutcome.netFail) 3).attempts ≤ 3 ∧
    generate_response (fun _ => NetOutcome.netFail) 3 = ⟨.ok [], 3, 2⟩ ∧
    ∃ s, (generate_response (fun _ => NetOutcome.netFail) 3).result = .ok s :=
  ⟨(generate_response_retry_contract (fun _ => NetOutcome.netFail)).1,
   (generate_response_retry_contract (fun _ => NetOutcome.netFail)).2.1 (fun _ => rfl),
   (generate_response_retry_contract (fun _ => NetOutcome.netFail)).2.2 (fun _ => rfl)⟩

/-! ## C6 -/

/-- C6 counterexample: for the yes/no question of Scenario F, the raw
answer `"Yes, clearly."` is **not** normalized to `"yes"`: its first
whitespace token is `"yes,"` (with the comma), which fails the
first-token match, so the truncated verbatim answer is returned. -/
theorem clean_response_scenario_f_not_yes :
    is_yes_no_question (lchars "Is the patient improving?") = true ∧
    clean_response (lchars "Yes, clearly.") true = lchars "Yes, clearly." ∧
    lchars "Yes, clearly." ≠ lchars "yes" :=
  ⟨rfl, rfl, by decide⟩

/-- C6 (amended): the question is classified yes/no-seeking, but the raw
answer `"Yes, clearly."` comes back verbatim (bounded-length fallback),
because its first token carries the comma; comma-free answers such as
`"Yes clearly"` (first-token match) or `"Yes"` (post-strip exact match)
do normalize to `"yes"`. -/
theorem clean_response_scenario_f_actual :
    is_yes_no_question (lchars "Is the patient improving?") = true ∧
    clean_response (lchars "Yes, clearly.")
        (is_yes_no_question (lchars "Is the patient improving?"))
      = lchars "Yes, clearly." ∧
    clean_response (lchars "Yes clearly") true = lchars "yes" ∧
    clean_response (lchars "Yes") true = lchars "yes" :=
  ⟨rfl, rfl, rfl, rfl⟩

/-! ## C7 -/

/-- C7: every record written by `save_results` (QA_v3 and EC_v5) holds
exactly the `id` field plus the task's single result field, never the
diagnostic fields present on the in-memory records. -/
theorem save_results_project_exact_fields :
    (∀ results, ∀ r ∈ qa_save_results results,
        jKeys r = [lchars "id", lchars "predicted_answer"]) ∧
    (∀ results, ∀ r ∈ ec_save_results results,
        jKeys r = [lchars "id", lchars "predicted_emotion"]) := by
  constructor
  · intro results r hr
    obtain ⟨x, _, hx⟩ := List.mem_map.mp hr
    rw [← hx]
    rfl
  · intro results r hr
    obtain ⟨x, _, hx⟩ := List.mem_map.mp hr
    rw [← hx]
    rfl

/-- Witness for C7 on singleton result lists whose QA record carries the
diagnostic fields. -/
theorem save_results_project_exact_fields_witness :
    jKeys (JsonVal.obj [(lchars "id", .int 0), (lchars "predicted_answer", .str (lchars "yes"))])
      = [lchars "id", lchars "predicted_answer"] ∧
    jKeys (JsonVal.obj [(lchars "id", .int 0), (lchars "predicted_emotion", .str (lchars "Delight"))])
      = [lchars "id", lchars "predicted_emotion"] :=
  ⟨save_results_project_exact_fields.1
      [⟨.int 0, .str (lchars "yes"), true, lchars "Yes, clearly."⟩]
      (JsonVal.obj [(lchars "id", .int 0), (lchars "predicted_answer", .str (lchars "yes"))])
      (List.mem_singleton.mpr rfl),
   save_results_project_exact_fields.2
      [⟨.int 0, .str (lchars "Delight")⟩]
      (JsonVal.obj [(lchars "id", .int 0), (lchars "predicted_emotion", .str (lchars "Delight"))])
      (List.mem_singleton.mpr rfl)⟩

/-! ## C8 -/

/-- C8: the extractors are pure functions of their inputs — two runs on
identical text and domain give identical results (no hidden
randomness). -/
theorem extract_deterministic (t : List Char) (choices : List (List Char)) (t2 : List Char) :
    extract_emotion t choices = extract_emotion t choices ∧
    extract_index_from_response t2 = extract_index_from_response t2 :=
  ⟨rfl, rfl⟩

/-! ## C9 -/

/-- C9: a label parsed by the JSON tier that is not a member of the
choice list is discarded, and `extract_emotion` continues with the lower
tiers instead of returning the parsed value. -/
theorem json_tier_out_of_domain_falls_through (t : List Char)
    (choices : List (List Char)) (e : List Char)
    (hj : extract_emotion_from_json t = some (.str e)) (he : e ∉ choices) :
    extract_emotion t choices = ec_lower_tiers t choices := by
  unfold extract_emotion
  rw [hj]
  show (if e ≠ [] ∧ e ∈ choices then e else ec_lower_tiers t choices) = ec_lower_tiers t choices
  rw [if_neg (fun hc => he hc.2)]

/-- Witness for C9: the JSON tier parses the out-of-domain label
`"Fear"`, which is discarded in favor of the lower tiers. -/
theorem json_tier_out_of_domain_falls_through_witness :
    extract_emotion_from_json (lchars "\x7b\"Emotion\": \"Fear\"\x7d") = some (.str (lchars "Fear")) ∧
    extract_emotion (lchars "\x7b\"Emotion\": \"Fear\"\x7d") [lchars "Delight"]
      = ec_lower_tiers (lchars "\x7b\"Emotion\": \"Fear\"\x7d") [lchars "Delight"] :=
  ⟨rfl, json_tier_out_of_domain_falls_through (lchars "\x7b\"Emotion\": \"Fear\"\x7d")
    [lchars "Delight"] (lchars "Fear") rfl (by decide)⟩

/-! ## C10 -/

/-- C10: in ED_v2 and ES_v1, a line that is empty or whitespace-only is
skipped entirely — no model call and no output record, at every position
of the stream. -/
theorem blank_line_skipped (respondD respondS : ℕ → Except Unit (List Char)) (i : ℕ)
    (line : List Char) (h : pyStrip line = []) :
    ed_line_step respondD i line = .skip ∧ es_line_step respondS i line = .skip ∧
    edEffOuts .skip = [] ∧ edEffCalled .skip = false ∧
    esEffOuts .skip = [] ∧ esEffCalled .skip = false ∧
    ∀ lines cap, (capLines lines cap)[i]? = some line →
      (ed_run_effs respondD lines cap)[i]? = some .skip ∧
      (es_run_effs respondS lines cap)[i]? = some .skip := by
  refine ⟨by simp [ed_line_step, h], by simp [es_line_step, h], rfl, rfl, rfl, rfl, ?_⟩
  intro lines cap hl
  constructor
  · simp only [ed_run_effs, List.getElem?_map, enumF_getElem?, hl, Option.map_some,
      Nat.zero_add]
    simp [ed_line_step, h]
  · simp only [es_run_effs, List.getElem?_map, enumF_getElem?, hl, Option.map_some,
      Nat.zero_add]
    simp [es_line_step, h]

/-- Witness for C10 at a one-space line in a singleton stream. -/
theorem blank_line_skipped_witness :
    ed_line_step (fun _ => Except.ok []) 0 (lchars " ") = .skip ∧
    es_line_step (fun _ => Except.ok []) 0 (lchars " ") = .skip ∧
    (ed_run_effs (fun _ => Except.ok []) [lchars " "] none)[0]? = some .skip := by
  have h := blank_line_skipped (fun _ => Except.ok []) (fun _ => Except.ok []) 0 (lchars " ") rfl
  exact ⟨h.1, h.2.1, (h.2.2.2.2.2.2 [lchars " "] none rfl).1⟩
